import Mathlib

/-!
Verification of the utn-runner frame-time normalization and game-clock
subsystem, together with the player input handling, collision priority and
difficulty scaling, shallowly embedded from the TypeScript source
(`src/components/game/GameTimeManager.ts`, the `Player` component and
`config.ts`).

Numbers are modelled as exact rationals: every constant involved
(0.05, 0.2, 1/60, lane offsets, box sizes) is exactly representable and the
properties under study concern branch structure and exact algebra, not
floating-point rounding.  The difficulty sigmoid uses a real exponential and
is modelled over the reals.  Wall-clock-driven FPS diagnostics
(`performance.now()` bookkeeping inside `updateTime`) are observational
logging only and are not part of the model; the diagnostic counters that are
updated unconditionally per frame (`frameCount`, `freezeDetectedCount`,
`extremeFrameCount`) are kept.
-/

namespace Runner

/-! ## Clock Normalizer: `GameTimeManager` -/

/-- Constant `MAX_DELTA_TIME` from `GameTimeManager.ts`: 50ms clamp ceiling. -/
def MAX_DELTA_TIME : ℚ := 0.05

/-- Constant `EXTREME_DELTA_THRESHOLD` from `GameTimeManager.ts`: 200ms freeze cutoff. -/
def EXTREME_DELTA_THRESHOLD : ℚ := 0.2

/-- Constant `SMOOTHING_SAMPLES` from `GameTimeManager.ts`: history capacity. -/
def SMOOTHING_SAMPLES : ℕ := 5

/-- The mutable fields of the `GameTimeManager` singleton. -/
structure GameTimeState where
  gameTime : ℚ
  isPaused : Bool
  pauseStartTime : ℚ
  deltaHistory : List ℚ
  smoothedDelta : ℚ
  frameCount : ℕ
  freezeDetectedCount : ℕ
  extremeFrameCount : ℕ
deriving DecidableEq

/-- Field initializers of `GameTimeManager` (also the post-`reset` state). -/
def GameTimeState.initial : GameTimeState where
  gameTime := 0
  isPaused := false
  pauseStartTime := 0
  deltaHistory := []
  smoothedDelta := 1/60
  frameCount := 0
  freezeDetectedCount := 0
  extremeFrameCount := 0

/-- The record returned by `updateTime`. -/
structure UpdateResult where
  processedDelta : ℚ
  shouldSkipPhysics : Bool
  isRecoveringFromFreeze : Bool
deriving DecidableEq

/-- Method `GameTimeManager.updateTime(rawDeltaTime)`, returning the result record
and the successor state.  The JS history buffer is oldest-first: `push`
appends, `shift` drops the head. -/
def updateTime (s : GameTimeState) (rawDeltaTime : ℚ) : UpdateResult × GameTimeState :=
  if s.isPaused then
    (⟨0, true, false⟩, s)
  else
    let isExtremeFrame := rawDeltaTime > EXTREME_DELTA_THRESHOLD
    let isRecoveringFromFreeze := rawDeltaTime > MAX_DELTA_TIME * 2
    if isExtremeFrame then
      (⟨0, true, true⟩, { s with extremeFrameCount := s.extremeFrameCount + 1 })
    else
      let clampedDelta := min rawDeltaTime MAX_DELTA_TIME
      let pushed := s.deltaHistory ++ [clampedDelta]
      let newHistory := if pushed.length > SMOOTHING_SAMPLES then pushed.drop 1 else pushed
      let newSmoothed := newHistory.sum / (newHistory.length : ℚ)
      let newFreeze :=
        if isRecoveringFromFreeze then s.freezeDetectedCount + 1 else s.freezeDetectedCount
      (⟨newSmoothed, false, decide isRecoveringFromFreeze⟩,
        { s with
          gameTime := s.gameTime + newSmoothed
          deltaHistory := newHistory
          smoothedDelta := newSmoothed
          frameCount := s.frameCount + 1
          freezeDetectedCount := newFreeze })

/-- Method `GameTimeManager.setPaused(paused)`. -/
def setPaused (s : GameTimeState) (paused : Bool) : GameTimeState :=
  let s1 := if paused && !s.isPaused then { s with pauseStartTime := s.gameTime } else s
  { s1 with isPaused := paused }

/-- Method `GameTimeManager.reset()`. -/
def reset (_s : GameTimeState) : GameTimeState := GameTimeState.initial

/-- Method `GameTimeManager.hasTimeElapsed(lastTime, interval)`. -/
def hasTimeElapsed (s : GameTimeState) (lastTime interval : ℚ) : Bool :=
  decide (s.gameTime - lastTime ≥ interval)

/-- Method `GameTimeManager.getEventProgress(startTime, duration)`:
`Math.min(Math.max(elapsed / duration, 0), 1)` with
`elapsed = gameTime - startTime`. -/
def getEventProgress (s : GameTimeState) (startTime duration : ℚ) : ℚ :=
  min (max ((s.gameTime - startTime) / duration) 0) 1

/-- Method `GameTimeManager.isEventComplete(startTime, duration)`. -/
def isEventComplete (s : GameTimeState) (startTime duration : ℚ) : Bool :=
  decide (s.gameTime - startTime ≥ duration)

end Runner

namespace Runner

/-! ## C1, C3: frame classification and pause behavior -/

/-- C1: for every non-paused clock state and every `rawDelta` above the
extreme threshold 0.2, `updateTime` returns exactly
`{processedDelta := 0, shouldSkipPhysics := true, isRecoveringFromFreeze := true}`
and leaves `gameTime`, `smoothedDelta` and `deltaHistory` unchanged. -/
theorem updateTime_extreme_frame (s : GameTimeState) (raw : ℚ)
    (hp : s.isPaused = false) (hx : raw > EXTREME_DELTA_THRESHOLD) :
    (updateTime s raw).1 = ⟨0, true, true⟩ ∧
    (updateTime s raw).2.gameTime = s.gameTime ∧
    (updateTime s raw).2.smoothedDelta = s.smoothedDelta ∧
    (updateTime s raw).2.deltaHistory = s.deltaHistory := by
  simp [updateTime, hp, hx]

/-- C1 witness: the extreme-frame contract evaluated at the initial state with
`rawDelta = 5`. -/
theorem updateTime_extreme_frame_check :
    (updateTime GameTimeState.initial 5).1 = ⟨0, true, true⟩ ∧
    (updateTime GameTimeState.initial 5).2.gameTime = GameTimeState.initial.gameTime ∧
    (updateTime GameTimeState.initial 5).2.smoothedDelta = GameTimeState.initial.smoothedDelta ∧
    (updateTime GameTimeState.initial 5).2.deltaHistory = GameTimeState.initial.deltaHistory :=
  updateTime_extreme_frame GameTimeState.initial 5 rfl (by norm_num [EXTREME_DELTA_THRESHOLD])

/-- C3: while paused, `updateTime` returns
`{0, true, false}` and is the identity on the state, for every `rawDelta`;
hence any sequence of paused updates leaves the state (so `gameTime`)
unchanged.  Unpausing and advancing once by `rawDelta = 1/60` grows
`gameTime` by exactly the (recomputed) smoothed delta, not by any pause
duration. -/
theorem updateTime_paused (s : GameTimeState) (hp : s.isPaused = true) :
    (∀ raw : ℚ, updateTime s raw = (⟨0, true, false⟩, s)) ∧
    (∀ ds : List ℚ, ds.foldl (fun st d => (updateTime st d).2) s = s) ∧
    ((updateTime (setPaused s false) (1/60)).2.gameTime =
      s.gameTime + (updateTime (setPaused s false) (1/60)).2.smoothedDelta) := by
  have hid : ∀ raw : ℚ, updateTime s raw = (⟨0, true, false⟩, s) := by
    intro raw; simp [updateTime, hp]
  refine ⟨hid, ?_, ?_⟩
  · intro ds
    induction ds with
    | nil => rfl
    | cons d ds ih => simpa [hid d] using ih
  · have hup : setPaused s false =
        { s with isPaused := false } := by
      simp [setPaused, hp]
    rw [hup]
    simp [updateTime, EXTREME_DELTA_THRESHOLD]
    norm_num

/-- C3 witness: the pause contract evaluated at a concrete paused state and a
concrete delta. -/
theorem updateTime_paused_check :
    updateTime { GameTimeState.initial with isPaused := true } (3/100) =
      (⟨0, true, false⟩, { GameTimeState.initial with isPaused := true }) :=
  (updateTime_paused { GameTimeState.initial with isPaused := true } rfl).1 (3/100)

/-! ## Helper lemmas for the smoothing history -/

lemma list_sum_nonneg (l : List ℚ) (h : ∀ x ∈ l, 0 ≤ x) : 0 ≤ l.sum := by
  induction l with
  | nil => simp
  | cons a t ih =>
    have ha := h a (List.mem_cons_self a t)
    have ht := ih fun x hx => h x (List.mem_cons_of_mem a hx)
    simp only [List.sum_cons]
    linarith

lemma list_sum_le_length_mul (l : List ℚ) (c : ℚ) (h : ∀ x ∈ l, x ≤ c) :
    l.sum ≤ (l.length : ℚ) * c := by
  induction l with
  | nil => simp
  | cons a t ih =>
    have ha := h a (List.mem_cons_self a t)
    have ht := ih fun x hx => h x (List.mem_cons_of_mem a hx)
    simp only [List.sum_cons, List.length_cons]
    push_cast
    linarith

lemma list_sum_pos_of_mem (l : List ℚ) (a : ℚ) (ha : a ∈ l) (hpos : 0 < a)
    (h : ∀ x ∈ l, 0 ≤ x) : 0 < l.sum := by
  induction l with
  | nil => simp at ha
  | cons b t ih =>
    have hb := h b (List.mem_cons_self b t)
    have hts := list_sum_nonneg t fun x hx => h x (List.mem_cons_of_mem b hx)
    rcases List.mem_cons.mp ha with hab | hat
    · simp only [List.sum_cons]; rw [← hab] at hb ⊢; linarith
    · have := ih hat fun x hx => h x (List.mem_cons_of_mem b hx)
      simp only [List.sum_cons]; linarith

lemma drop_one_append_singleton (l : List ℚ) (a : ℚ) (h : l ≠ []) :
    (l ++ [a]).drop 1 = l.drop 1 ++ [a] := by
  cases l with
  | nil => exact absurd rfl h
  | cons x xs => rfl

/-- The successor history of the normal branch of `updateTime`: push the
clamped delta, then shift the oldest entry out when over capacity. -/
def pushHistory (old : List ℚ) (c : ℚ) : List ℚ :=
  if (old ++ [c]).length > SMOOTHING_SAMPLES then (old ++ [c]).drop 1 else old ++ [c]

/-- The moving average computed by `updateTime` (sum over length). -/
def listMean (l : List ℚ) : ℚ := l.sum / (l.length : ℚ)

/-- Membership in the shifted history is inherited from the pushed list. -/
lemma mem_pushHistory (old : List ℚ) (c x : ℚ) (hx : x ∈ pushHistory old c) :
    x ∈ old ++ [c] := by
  unfold pushHistory at hx
  split at hx
  · exact List.mem_of_mem_drop hx
  · exact hx

/-- The freshly clamped delta always survives the shift. -/
lemma clamped_mem_pushHistory (old : List ℚ) (c : ℚ) : c ∈ pushHistory old c := by
  unfold pushHistory
  split
  · next hlen =>
      have hold : old ≠ [] := by
        intro hnil
        rw [hnil] at hlen
        simp [SMOOTHING_SAMPLES] at hlen
      rw [drop_one_append_singleton old c hold]
      exact List.mem_append_right _ (List.mem_singleton.mpr rfl)
  · exact List.mem_append_right _ (List.mem_singleton.mpr rfl)

lemma listMean_nonneg (l : List ℚ) (h : ∀ x ∈ l, 0 ≤ x) : 0 ≤ listMean l :=
  div_nonneg (list_sum_nonneg l h) (Nat.cast_nonneg l.length)

lemma listMean_pos (l : List ℚ) (a : ℚ) (ha : a ∈ l) (hpos : 0 < a)
    (h : ∀ x ∈ l, 0 ≤ x) : 0 < listMean l := by
  have hlen : (0:ℚ) < (l.length : ℚ) := by
    exact_mod_cast List.length_pos.mpr (List.ne_nil_of_mem ha)
  exact div_pos (list_sum_pos_of_mem l a ha hpos h) hlen

lemma listMean_le (l : List ℚ) (c : ℚ) (hne : l ≠ []) (h : ∀ x ∈ l, x ≤ c) :
    listMean l ≤ c := by
  have hlen : (0:ℚ) < (l.length : ℚ) := by
    exact_mod_cast List.length_pos.mpr hne
  unfold listMean
  rw [div_le_iff₀ hlen]
  have := list_sum_le_length_mul l c h
  linarith

/-- Unfolding of `updateTime` on a non-paused, non-extreme frame. -/
lemma updateTime_normal (s : GameTimeState) (raw : ℚ)
    (hp : s.isPaused = false) (hx : raw ≤ EXTREME_DELTA_THRESHOLD) :
    updateTime s raw =
      (⟨listMean (pushHistory s.deltaHistory (min raw MAX_DELTA_TIME)), false,
        decide (raw > MAX_DELTA_TIME * 2)⟩,
       { s with
         gameTime := s.gameTime +
           listMean (pushHistory s.deltaHistory (min raw MAX_DELTA_TIME))
         deltaHistory := pushHistory s.deltaHistory (min raw MAX_DELTA_TIME)
         smoothedDelta := listMean (pushHistory s.deltaHistory (min raw MAX_DELTA_TIME))
         frameCount := s.frameCount + 1
         freezeDetectedCount :=
           if raw > MAX_DELTA_TIME * 2 then s.freezeDetectedCount + 1
           else s.freezeDetectedCount }) := by
  unfold updateTime
  rw [hp]
  simp only [Bool.false_eq_true, if_false]
  rw [if_neg (not_lt.mpr hx)]
  rfl

/-! ## C2: monotonicity of `gameTime` -/

/-- C2 counterexample: from the initial (non-paused) state, a call with
`rawDelta = 0` — non-negative and not classified extreme — leaves `gameTime`
unchanged, so `gameTime` is not strictly greater after every non-extreme
frame. -/
theorem updateTime_zero_delta_not_strict :
    GameTimeState.initial.isPaused = false ∧
    (0:ℚ) ≤ 0 ∧ ¬ ((0:ℚ) > EXTREME_DELTA_THRESHOLD) ∧
    (updateTime GameTimeState.initial 0).2.gameTime = GameTimeState.initial.gameTime := by
  refine ⟨rfl, le_refl 0, by norm_num [EXTREME_DELTA_THRESHOLD], ?_⟩
  rw [updateTime_normal GameTimeState.initial 0 rfl (by norm_num [EXTREME_DELTA_THRESHOLD])]
  norm_num [GameTimeState.initial, pushHistory, listMean, MAX_DELTA_TIME, SMOOTHING_SAMPLES]

/-- C2 (amended): for non-negative `rawDelta` and a history of non-negative
entries, `gameTime` never decreases across `updateTime` (and the history stays
non-negative, so this holds along every call sequence); it strictly increases
whenever the clock is not paused and `0 < rawDelta ≤ 0.2`.  A `rawDelta = 0`
frame may leave `gameTime` unchanged (see the counterexample), which is the
only weakening of the original claim. -/
theorem updateTime_monotone (s : GameTimeState) (raw : ℚ)
    (hh : ∀ d ∈ s.deltaHistory, 0 ≤ d) (hr : 0 ≤ raw) :
    s.gameTime ≤ (updateTime s raw).2.gameTime ∧
    (∀ d ∈ (updateTime s raw).2.deltaHistory, 0 ≤ d) ∧
    (s.isPaused = false → 0 < raw → raw ≤ EXTREME_DELTA_THRESHOLD →
      s.gameTime < (updateTime s raw).2.gameTime) := by
  cases hp : s.isPaused with
  | true =>
    simp only [updateTime, hp, if_true]
    exact ⟨le_refl _, hh, fun hfalse => by simp at hfalse⟩
  | false =>
    by_cases hx : raw > EXTREME_DELTA_THRESHOLD
    · simp only [updateTime, hp, Bool.false_eq_true, if_false, if_pos hx]
      exact ⟨le_refl _, hh, fun _ _ hle => absurd hx (not_lt.mpr hle)⟩
    · have hx' : raw ≤ EXTREME_DELTA_THRESHOLD := not_lt.mp hx
      rw [updateTime_normal s raw hp hx']
      have hc0 : 0 ≤ min raw MAX_DELTA_TIME :=
        le_min hr (by norm_num [MAX_DELTA_TIME])
      have hmem : ∀ x ∈ pushHistory s.deltaHistory (min raw MAX_DELTA_TIME), 0 ≤ x := by
        intro x hxmem
        rcases List.mem_append.mp (mem_pushHistory _ _ _ hxmem) with hold | hnew
        · exact hh x hold
        · rw [List.mem_singleton.mp hnew]; exact hc0
      refine ⟨?_, hmem, ?_⟩
      · have := listMean_nonneg _ hmem
        simp only
        linarith
      · intro _ hpos _
        have hcpos : 0 < min raw MAX_DELTA_TIME :=
          lt_min hpos (by norm_num [MAX_DELTA_TIME])
        have hcm := clamped_mem_pushHistory s.deltaHistory (min raw MAX_DELTA_TIME)
        have := listMean_pos _ _ hcm hcpos hmem
        simp only
        linarith

/-- C2 witness: the amended monotonicity statement applied to the initial
state with `rawDelta = 1/60`. -/
theorem updateTime_monotone_check :
    GameTimeState.initial.gameTime ≤ (updateTime GameTimeState.initial (1/60)).2.gameTime ∧
    (∀ d ∈ (updateTime GameTimeState.initial (1/60)).2.deltaHistory, 0 ≤ d) ∧
    (GameTimeState.initial.isPaused = false → 0 < (1/60:ℚ) → (1/60:ℚ) ≤ EXTREME_DELTA_THRESHOLD →
      GameTimeState.initial.gameTime < (updateTime GameTimeState.initial (1/60)).2.gameTime) :=
  updateTime_monotone GameTimeState.initial (1/60) (by simp [GameTimeState.initial]) (by norm_num)

/-! ## C4: normal-frame processing -/

/-- Under the capacity invariant, push-then-shift is the same as
"evict the oldest entry when full, then append". -/
lemma pushHistory_fifo (old : List ℚ) (c : ℚ) (hlen : old.length ≤ SMOOTHING_SAMPLES) :
    pushHistory old c =
      if old.length < SMOOTHING_SAMPLES then old ++ [c] else old.drop 1 ++ [c] := by
  unfold pushHistory
  by_cases h : old.length < SMOOTHING_SAMPLES
  · rw [if_pos h, if_neg]
    simp only [List.length_append, List.length_singleton, SMOOTHING_SAMPLES] at h ⊢
    omega
  · have h5 : old.length = SMOOTHING_SAMPLES := le_antisymm hlen (not_lt.mp h)
    rw [if_neg h, if_pos]
    · apply drop_one_append_singleton
      intro hnil
      rw [hnil] at h5
      simp [SMOOTHING_SAMPLES] at h5
    · simp only [List.length_append, List.length_singleton, h5, SMOOTHING_SAMPLES]
      omega

lemma pushHistory_length_le (old : List ℚ) (c : ℚ) (hlen : old.length ≤ SMOOTHING_SAMPLES) :
    (pushHistory old c).length ≤ SMOOTHING_SAMPLES := by
  unfold pushHistory
  split
  · next h =>
      simp only [List.length_drop, List.length_append, List.length_singleton]
      omega
  · next h =>
      simp only [List.length_append, List.length_singleton, not_lt] at h ⊢
      exact h

/-- C4: for a non-paused clock and `0 ≤ rawDelta ≤ 0.2`, `updateTime` appends
`min rawDelta 0.05` to the history (evicting the oldest entry when the buffer
already holds 5), recomputes `smoothedDelta` as the arithmetic mean of the
buffer, adds it to `gameTime`, and returns
`{smoothedDelta, shouldSkipPhysics := false, isRecoveringFromFreeze}` with
`isRecoveringFromFreeze` true exactly when `rawDelta > 0.1`; the value fed to
the history is at most 0.05. -/
theorem updateTime_normal_frame (s : GameTimeState) (raw : ℚ)
    (hp : s.isPaused = false) (h0 : 0 ≤ raw) (h2 : raw ≤ EXTREME_DELTA_THRESHOLD)
    (hlen : s.deltaHistory.length ≤ SMOOTHING_SAMPLES) :
    min raw MAX_DELTA_TIME ≤ MAX_DELTA_TIME ∧
    (updateTime s raw).2.deltaHistory =
      (if s.deltaHistory.length < SMOOTHING_SAMPLES
        then s.deltaHistory ++ [min raw MAX_DELTA_TIME]
        else s.deltaHistory.drop 1 ++ [min raw MAX_DELTA_TIME]) ∧
    (updateTime s raw).2.deltaHistory.length ≤ SMOOTHING_SAMPLES ∧
    (updateTime s raw).2.smoothedDelta =
      (updateTime s raw).2.deltaHistory.sum / ((updateTime s raw).2.deltaHistory.length : ℚ) ∧
    (updateTime s raw).2.gameTime = s.gameTime + (updateTime s raw).2.smoothedDelta ∧
    (updateTime s raw).1.processedDelta = (updateTime s raw).2.smoothedDelta ∧
    (updateTime s raw).1.shouldSkipPhysics = false ∧
    ((updateTime s raw).1.isRecoveringFromFreeze = true ↔ raw > 1/10) := by
  rw [updateTime_normal s raw hp h2]
  refine ⟨min_le_right _ _, pushHistory_fifo _ _ hlen, pushHistory_length_le _ _ hlen,
    rfl, rfl, rfl, rfl, ?_⟩
  simp only [decide_eq_true_eq]
  constructor <;> intro h <;> [skip; skip] <;> first
  | (norm_num [MAX_DELTA_TIME] at h ⊢; linarith)

/-- C4 witness: the normal-frame contract evaluated at the initial state with
`rawDelta = 0.15` (the 0.1–0.2 band of the claim). -/
theorem updateTime_normal_frame_check :
    min (0.15:ℚ) MAX_DELTA_TIME ≤ MAX_DELTA_TIME ∧
    (updateTime GameTimeState.initial 0.15).2.deltaHistory =
      (if GameTimeState.initial.deltaHistory.length < SMOOTHING_SAMPLES
        then GameTimeState.initial.deltaHistory ++ [min (0.15:ℚ) MAX_DELTA_TIME]
        else GameTimeState.initial.deltaHistory.drop 1 ++ [min (0.15:ℚ) MAX_DELTA_TIME]) ∧
    (updateTime GameTimeState.initial 0.15).2.deltaHistory.length ≤ SMOOTHING_SAMPLES ∧
    (updateTime GameTimeState.initial 0.15).2.smoothedDelta =
      (updateTime GameTimeState.initial 0.15).2.deltaHistory.sum /
        ((updateTime GameTimeState.initial 0.15).2.deltaHistory.length : ℚ) ∧
    (updateTime GameTimeState.initial 0.15).2.gameTime =
      GameTimeState.initial.gameTime + (updateTime GameTimeState.initial 0.15).2.smoothedDelta ∧
    (updateTime GameTimeState.initial 0.15).1.processedDelta =
      (updateTime GameTimeState.initial 0.15).2.smoothedDelta ∧
    (updateTime GameTimeState.initial 0.15).1.shouldSkipPhysics = false ∧
    ((updateTime GameTimeState.initial 0.15).1.isRecoveringFromFreeze = true ↔ (0.15:ℚ) > 1/10) :=
  updateTime_normal_frame GameTimeState.initial 0.15 rfl (by norm_num)
    (by norm_num [EXTREME_DELTA_THRESHOLD])
    (by simp [GameTimeState.initial, SMOOTHING_SAMPLES])

/-! ## C10: the smoothed delta is bounded by the clamp ceiling -/

/-- Reachable-state invariant of the clock: every history entry and the
smoothed delta lie in `[0, MAX_DELTA_TIME]`, and the history respects its
capacity. -/
def ClockInv (s : GameTimeState) : Prop :=
  (∀ d ∈ s.deltaHistory, 0 ≤ d ∧ d ≤ MAX_DELTA_TIME) ∧
  0 ≤ s.smoothedDelta ∧ s.smoothedDelta ≤ MAX_DELTA_TIME ∧
  s.deltaHistory.length ≤ SMOOTHING_SAMPLES

lemma clockInv_initial : ClockInv GameTimeState.initial := by
  refine ⟨?_, ?_, ?_, ?_⟩
  · simp [GameTimeState.initial]
  · norm_num [GameTimeState.initial]
  · norm_num [GameTimeState.initial, MAX_DELTA_TIME]
  · norm_num [GameTimeState.initial, SMOOTHING_SAMPLES]

/-- C10: the invariant holds initially and is preserved by every call to
`updateTime` with non-negative `rawDelta`; in particular, after every such
call `smoothedDelta ∈ [0, 0.05]`, and a single call never moves `gameTime` by
more than `MAX_DELTA_TIME = 0.05`, no matter how large `rawDelta` is. -/
theorem updateTime_smoothed_bounded (s : GameTimeState) (raw : ℚ)
    (hinv : ClockInv s) (hr : 0 ≤ raw) :
    ClockInv GameTimeState.initial ∧
    ClockInv (updateTime s raw).2 ∧
    0 ≤ (updateTime s raw).2.smoothedDelta ∧
    (updateTime s raw).2.smoothedDelta ≤ MAX_DELTA_TIME ∧
    s.gameTime ≤ (updateTime s raw).2.gameTime ∧
    (updateTime s raw).2.gameTime ≤ s.gameTime + MAX_DELTA_TIME := by
  obtain ⟨hH, hs0, hs1, hlen⟩ := hinv
  have hMAX : (0:ℚ) ≤ MAX_DELTA_TIME := by norm_num [MAX_DELTA_TIME]
  cases hp : s.isPaused with
  | true =>
    simp only [updateTime, hp, if_true]
    exact ⟨clockInv_initial, ⟨hH, hs0, hs1, hlen⟩, hs0, hs1, le_refl _, by linarith⟩
  | false =>
    by_cases hx : raw > EXTREME_DELTA_THRESHOLD
    · simp only [updateTime, hp, Bool.false_eq_true, if_false, if_pos hx]
      exact ⟨clockInv_initial, ⟨hH, hs0, hs1, hlen⟩, hs0, hs1, le_refl _, by linarith⟩
    · have hx' : raw ≤ EXTREME_DELTA_THRESHOLD := not_lt.mp hx
      rw [updateTime_normal s raw hp hx']
      have hc0 : 0 ≤ min raw MAX_DELTA_TIME := le_min hr hMAX
      have hc1 : min raw MAX_DELTA_TIME ≤ MAX_DELTA_TIME := min_le_right _ _
      have hmem : ∀ x ∈ pushHistory s.deltaHistory (min raw MAX_DELTA_TIME),
          0 ≤ x ∧ x ≤ MAX_DELTA_TIME := by
        intro x hxmem
        rcases List.mem_append.mp (mem_pushHistory _ _ _ hxmem) with hold | hnew
        · exact hH x hold
        · rw [List.mem_singleton.mp hnew]; exact ⟨hc0, hc1⟩
      have hne : pushHistory s.deltaHistory (min raw MAX_DELTA_TIME) ≠ [] :=
        List.ne_nil_of_mem (clamped_mem_pushHistory _ _)
      have hm0 : 0 ≤ listMean (pushHistory s.deltaHistory (min raw MAX_DELTA_TIME)) :=
        listMean_nonneg _ fun x hx => (hmem x hx).1
      have hm1 : listMean (pushHistory s.deltaHistory (min raw MAX_DELTA_TIME)) ≤
          MAX_DELTA_TIME :=
        listMean_le _ _ hne fun x hx => (hmem x hx).2
      refine ⟨clockInv_initial, ⟨hmem, hm0, hm1, pushHistory_length_le _ _ hlen⟩,
        hm0, hm1, ?_, ?_⟩ <;> simp only <;> linarith

/-- C10 witness: the bound applied to the initial state with `rawDelta = 1`
(a large frame, clamped away). -/
theorem updateTime_smoothed_bounded_check :
    ClockInv GameTimeState.initial ∧
    ClockInv (updateTime GameTimeState.initial 1).2 ∧
    0 ≤ (updateTime GameTimeState.initial 1).2.smoothedDelta ∧
    (updateTime GameTimeState.initial 1).2.smoothedDelta ≤ MAX_DELTA_TIME ∧
    GameTimeState.initial.gameTime ≤ (updateTime GameTimeState.initial 1).2.gameTime ∧
    (updateTime GameTimeState.initial 1).2.gameTime ≤
      GameTimeState.initial.gameTime + MAX_DELTA_TIME :=
  updateTime_smoothed_bounded GameTimeState.initial 1 clockInv_initial (by norm_num)

/-! ## C5: timed-event helpers -/

/-- C5: for every positive duration `D`, `getEventProgress` is the clamped
linear progress `clamp((gameTime - T)/D, 0, 1)`: it is 0 at `gameTime = T`,
1 at `gameTime = T + D`, still 1 at `gameTime = T + 2D`; and
`isEventComplete` returns true exactly when the progress is ≥ 1. -/
theorem eventProgress_boundaries (s : GameTimeState) (T D : ℚ) (hD : 0 < D) :
    getEventProgress s T D = min (max ((s.gameTime - T) / D) 0) 1 ∧
    (s.gameTime = T → getEventProgress s T D = 0) ∧
    (s.gameTime = T + D → getEventProgress s T D = 1) ∧
    (s.gameTime = T + 2 * D → getEventProgress s T D = 1) ∧
    (isEventComplete s T D = true ↔ getEventProgress s T D ≥ 1) := by
  refine ⟨rfl, ?_, ?_, ?_, ?_⟩
  · intro h
    unfold getEventProgress
    rw [h, sub_self, zero_div]
    norm_num
  · intro h
    unfold getEventProgress
    rw [h, add_sub_cancel_left, div_self (ne_of_gt hD)]
    norm_num
  · intro h
    unfold getEventProgress
    rw [h, add_sub_cancel_left]
    have h2 : (2 * D) / D = 2 := by field_simp
    rw [h2]
    norm_num
  · unfold isEventComplete getEventProgress
    rw [decide_eq_true_eq]
    constructor
    · intro h
      have h1 : 1 ≤ (s.gameTime - T) / D := (one_le_div hD).mpr h
      exact le_min (le_trans h1 (le_max_left _ _)) (le_refl 1)
    · intro h
      have h2 : 1 ≤ max ((s.gameTime - T) / D) 0 := (le_min_iff.mp h).1
      rcases le_max_iff.mp h2 with h3 | h3
      · exact (one_le_div hD).mp h3
      · norm_num at h3

/-- C5 witness: the boundary facts evaluated at `T = 0`, `D = 1` on the
initial state. -/
theorem eventProgress_boundaries_check :
    getEventProgress GameTimeState.initial 0 1 =
      min (max ((GameTimeState.initial.gameTime - 0) / 1) 0) 1 ∧
    (GameTimeState.initial.gameTime = 0 → getEventProgress GameTimeState.initial 0 1 = 0) ∧
    (GameTimeState.initial.gameTime = 0 + 1 → getEventProgress GameTimeState.initial 0 1 = 1) ∧
    (GameTimeState.initial.gameTime = 0 + 2 * 1 → getEventProgress GameTimeState.initial 0 1 = 1) ∧
    (isEventComplete GameTimeState.initial 0 1 = true ↔
      getEventProgress GameTimeState.initial 0 1 ≥ 1) :=
  eventProgress_boundaries GameTimeState.initial 0 1 (by norm_num)

/-! ## Player input: lanes, keyboard, hand gestures -/

/-- The three lanes (`type Lane = "left" | "center" | "right"`). -/
inductive Lane where
  | left
  | center
  | right
deriving DecidableEq

/-- Config `GAME_CONFIG.lanes`: x offset of each lane. -/
def lanesX : Lane → ℚ
  | Lane.left => -4
  | Lane.center => 0
  | Lane.right => 4

/-- The player-side state touched by the input handlers of the `Player`
component. -/
structure PlayerState where
  currentLane : Lane
  targetX : ℚ
  isJumping : Bool
  jumpStartTime : ℚ
  isInvulnerable : Bool
  invulnerabilityEndTime : ℚ
  keyboardActive : Bool
deriving DecidableEq

/-- The three game keys handled by `handleKeyPress`. -/
inductive GameKey where
  | arrowLeft
  | arrowRight
  | arrowUp
deriving DecidableEq

/-- The `handleKeyPress` keydown handler of the `Player` component.  The
wall-clock 1-second `setTimeout` that clears `keyboardActive` is outside the
model; the handler itself only sets the flag.  `gameTime` stands for
`gameTimeManager.getGameTime()` at the time of the press. -/
def handleKeyPress (isGameOver isPaused : Bool) (gameTime : ℚ)
    (s : PlayerState) (key : GameKey) : PlayerState :=
  if isGameOver || isPaused then s
  else
    let s1 := { s with keyboardActive := true }
    match key with
    | GameKey.arrowLeft =>
      match s1.currentLane with
      | Lane.center => { s1 with currentLane := Lane.right, targetX := lanesX Lane.right }
      | Lane.left => { s1 with currentLane := Lane.center, targetX := lanesX Lane.center }
      | Lane.right => s1
    | GameKey.arrowRight =>
      match s1.currentLane with
      | Lane.center => { s1 with currentLane := Lane.left, targetX := lanesX Lane.left }
      | Lane.right => { s1 with currentLane := Lane.center, targetX := lanesX Lane.center }
      | Lane.left => s1
    | GameKey.arrowUp =>
      if !s1.isJumping then { s1 with isJumping := true, jumpStartTime := gameTime } else s1

/-- One-step lane adjacency: every move passes through the center lane. -/
def oneStep (a b : Lane) : Prop :=
  (a = Lane.center ∧ (b = Lane.left ∨ b = Lane.right)) ∨
  (b = Lane.center ∧ (a = Lane.left ∨ a = Lane.right))

/-- C7: a single key press moves the lane by at most one step (center↔left or
center↔right; never directly left↔right), and the jump key starts a jump only
when the player is not already jumping (an ongoing jump is untouched). -/
theorem handleKeyPress_one_step (g p : Bool) (gt : ℚ) (s : PlayerState) (key : GameKey) :
    ((handleKeyPress g p gt s key).currentLane = s.currentLane ∨
      oneStep s.currentLane (handleKeyPress g p gt s key).currentLane) ∧
    ¬(s.currentLane = Lane.left ∧ (handleKeyPress g p gt s key).currentLane = Lane.right) ∧
    ¬(s.currentLane = Lane.right ∧ (handleKeyPress g p gt s key).currentLane = Lane.left) ∧
    (s.isJumping = true →
      (handleKeyPress g p gt s key).isJumping = true ∧
      (handleKeyPress g p gt s key).jumpStartTime = s.jumpStartTime) ∧
    (key = GameKey.arrowUp → g = false → p = false → s.isJumping = false →
      (handleKeyPress g p gt s key).isJumping = true ∧
      (handleKeyPress g p gt s key).jumpStartTime = gt) := by
  rcases s with ⟨lane, tx, jmp, jst, inv, invT, kb⟩
  cases g <;> cases p <;> cases key <;> cases lane <;> cases jmp <;>
    simp [handleKeyPress, oneStep]

/-- C7 witness: concrete instances — an `ArrowLeft` press from the center
lane, and an `ArrowUp` press while not jumping. -/
theorem handleKeyPress_one_step_check :
    ((handleKeyPress false false 0
        ⟨Lane.center, 0, false, 0, false, 0, false⟩ GameKey.arrowLeft).currentLane =
        Lane.center ∨
      oneStep Lane.center
        (handleKeyPress false false 0
          ⟨Lane.center, 0, false, 0, false, 0, false⟩ GameKey.arrowLeft).currentLane) ∧
    ((handleKeyPress false false 7
        ⟨Lane.center, 0, false, 0, false, 0, false⟩ GameKey.arrowUp).isJumping = true ∧
      (handleKeyPress false false 7
        ⟨Lane.center, 0, false, 0, false, 0, false⟩ GameKey.arrowUp).jumpStartTime = 7) :=
  ⟨(handleKeyPress_one_step false false 0
      ⟨Lane.center, 0, false, 0, false, 0, false⟩ GameKey.arrowLeft).1,
   (handleKeyPress_one_step false false 7
      ⟨Lane.center, 0, false, 0, false, 0, false⟩ GameKey.arrowUp).2.2.2.2 rfl rfl rfl rfl⟩

/-- The hand-lane effect of the `Player` component (`useEffect` on
`handLane`): ignored while game over, paused, or the keyboard-priority flag
is set; a visible hand switches the lane, `lane: null` does nothing. -/
def applyHandLane (isGameOver isPaused keyboardActive : Bool)
    (handLane : Option Lane) (s : PlayerState) : PlayerState :=
  if isGameOver || isPaused || keyboardActive then s
  else
    match handLane with
    | none => s
    | some l =>
      if l ≠ s.currentLane then { s with currentLane := l, targetX := lanesX l } else s

/-- C8: a gesture signal with `lane = null` (no hand visible) never changes
the player state — in particular `currentLane` and `targetX` are unchanged —
for every aggregator state. -/
theorem applyHandLane_null (g p k : Bool) (s : PlayerState) :
    applyHandLane g p k none s = s ∧
    (applyHandLane g p k none s).currentLane = s.currentLane ∧
    (applyHandLane g p k none s).targetX = s.targetX := by
  have h : applyHandLane g p k none s = s := by
    unfold applyHandLane
    split <;> rfl
  exact ⟨h, by rw [h], by rw [h]⟩

/-! ## C6: collision detection and collectible priority -/

/-- Axis-aligned bounding box (`THREE.Box3`). -/
structure Box3 where
  minX : ℚ
  maxX : ℚ
  minY : ℚ
  maxY : ℚ
  minZ : ℚ
  maxZ : ℚ
deriving DecidableEq

/-- Method `Box3.setFromCenterAndSize(center, size)`. -/
def setFromCenterAndSize (cx cy cz sx sy sz : ℚ) : Box3 :=
  ⟨cx - sx / 2, cx + sx / 2, cy - sy / 2, cy + sy / 2, cz - sz / 2, cz + sz / 2⟩

/-- Method `Box3.intersectsBox` (touching boxes count as intersecting, per THREE). -/
def intersectsBox (a b : Box3) : Bool :=
  !(decide (b.maxX < a.minX) || decide (b.minX > a.maxX) ||
    decide (b.maxY < a.minY) || decide (b.minY > a.maxY) ||
    decide (b.maxZ < a.minZ) || decide (b.minZ > a.maxZ))

/-- Collectible entity (`interface Mate`). -/
structure Mate where
  id : ℕ
  x : ℚ
  z : ℚ
  lane : Lane
deriving DecidableEq

/-- Obstacle entity (`interface Obstacle`). -/
structure Obstacle where
  id : ℕ
  x : ℚ
  z : ℚ
  lane : Lane
deriving DecidableEq

/-- Config `GAME_CONFIG.mate.size`. -/
def mateSize : ℚ := 0.5

/-- Config `GAME_CONFIG.mate.height`. -/
def mateHeight : ℚ := 3

/-- Config `GAME_CONFIG.mate.invulnerabilityDuration / 1000` (ms → s, as in
`collectMate`). -/
def invulnerabilityDurationSeconds : ℚ := 5000 / 1000

/-- Config `GAME_CONFIG.obstacles.size = [1.5, 2, 1.5]`. -/
def obstacleSizeX : ℚ := 1.5

def obstacleSizeY : ℚ := 2

def obstacleSizeZ : ℚ := 1.5

/-- The player box built in `checkCollisions` (fixed 0.8³ cube around the
player position). -/
def playerBox (x y z : ℚ) : Box3 :=
  setFromCenterAndSize x y z 0.8 0.8 0.8

/-- The box of a collectible (centered at `(x, mate.height, z)`). -/
def mateBox (m : Mate) : Box3 :=
  setFromCenterAndSize m.x mateHeight m.z mateSize mateSize mateSize

/-- The box of an obstacle (centered at `(x, size_y/2 - 1, z)`). -/
def obstacleBox (o : Obstacle) : Box3 :=
  setFromCenterAndSize o.x (obstacleSizeY / 2 - 1) o.z obstacleSizeX obstacleSizeY obstacleSizeZ

/-- Function `checkCollisions` of the `Player` component together with the
`collectMate` side effects it triggers: returns the surviving collectibles,
the updated player state, and whether an obstacle hit (game over) was
signalled.  Collectibles are scanned first; the first intersecting one is
consumed (filtered out by id), invulnerability is granted until
`gameTime + 5`, and the function reports no game over; obstacles are only
consulted when no collectible intersects and the player is not invulnerable. -/
def checkCollisions (gameTime px py pz : ℚ) (s : PlayerState)
    (mates : List Mate) (obstacles : List Obstacle) :
    List Mate × PlayerState × Bool :=
  let pb := playerBox px py pz
  match mates.find? (fun m => intersectsBox pb (mateBox m)) with
  | some m =>
    (mates.filter (fun x => x.id != m.id),
     { s with isInvulnerable := true,
              invulnerabilityEndTime := gameTime + invulnerabilityDurationSeconds },
     false)
  | none =>
    if !s.isInvulnerable && obstacles.any (fun o => intersectsBox pb (obstacleBox o)) then
      (mates, s, true)
    else
      (mates, s, false)

lemma exists_find?_eq_some {α : Type} (p : α → Bool) (l : List α)
    (h : ∃ x ∈ l, p x = true) :
    ∃ y, l.find? p = some y ∧ y ∈ l ∧ p y = true := by
  induction l with
  | nil =>
    obtain ⟨x, hx, _⟩ := h
    simp at hx
  | cons a t ih =>
    by_cases hpa : p a = true
    · exact ⟨a, List.find?_cons_of_pos t hpa, List.mem_cons_self a t, hpa⟩
    · obtain ⟨x, hx, hpx⟩ := h
      rcases List.mem_cons.mp hx with rfl | hxt
      · exact absurd hpx hpa
      · obtain ⟨y, hy1, hy2, hy3⟩ := ih ⟨x, hxt, hpx⟩
        refine ⟨y, ?_, List.mem_cons_of_mem a hy2, hy3⟩
        rw [List.find?_cons_of_neg t (by simpa using hpa)]
        exact hy1

/-- C6: whenever the player (not invulnerable) intersects at least one
collectible box, `checkCollisions` consumes the first intersecting
collectible, grants invulnerability ending at
`gameTime + invulnerabilityDuration`, and signals no game over — for every
obstacle list, in particular when an obstacle box also overlaps that frame.
(With the shipped box geometry a collectible box, which floats at height 3,
and an obstacle box can never both touch the player in the same frame, so
the statement is proved in this stronger form that quantifies over all
obstacle configurations.) -/
theorem checkCollisions_mate_priority (gt px py pz : ℚ) (s : PlayerState)
    (mates : List Mate) (obstacles : List Obstacle)
    (hinv : s.isInvulnerable = false)
    (hmate : ∃ m ∈ mates, intersectsBox (playerBox px py pz) (mateBox m) = true) :
    ∃ m ∈ mates,
      intersectsBox (playerBox px py pz) (mateBox m) = true ∧
      checkCollisions gt px py pz s mates obstacles =
        (mates.filter (fun x => x.id != m.id),
         { s with isInvulnerable := true,
                  invulnerabilityEndTime := gt + invulnerabilityDurationSeconds },
         false) := by
  obtain ⟨m, hfind, hmem, hint⟩ := exists_find?_eq_some _ mates hmate
  refine ⟨m, hmem, hint, ?_⟩
  simp only [checkCollisions, hfind]

/-- C6 witness: a jumping player at `(0, 3, 0)` touching the collectible at
`(0, 0)` while an obstacle also sits at `(0, 0)`: the collectible is
consumed, invulnerability ends at `gameTime + 5`, and no game over fires. -/
theorem checkCollisions_mate_priority_check :
    ∃ m ∈ [(⟨0, 0, 0, Lane.center⟩ : Mate)],
      intersectsBox (playerBox 0 3 0) (mateBox m) = true ∧
      checkCollisions 2 0 3 0 ⟨Lane.center, 0, true, 0, false, 0, false⟩
          [(⟨0, 0, 0, Lane.center⟩ : Mate)] [(⟨0, 0, 0, Lane.center⟩ : Obstacle)] =
        ([(⟨0, 0, 0, Lane.center⟩ : Mate)].filter (fun x => x.id != m.id),
         { (⟨Lane.center, 0, true, 0, false, 0, false⟩ : PlayerState) with
             isInvulnerable := true,
             invulnerabilityEndTime := 2 + invulnerabilityDurationSeconds },
         false) :=
  checkCollisions_mate_priority 2 0 3 0 ⟨Lane.center, 0, true, 0, false, 0, false⟩
    [(⟨0, 0, 0, Lane.center⟩ : Mate)] [(⟨0, 0, 0, Lane.center⟩ : Obstacle)] rfl
    ⟨⟨0, 0, 0, Lane.center⟩, List.mem_singleton.mpr rfl, by
      simp only [intersectsBox, playerBox, mateBox, setFromCenterAndSize,
        Bool.not_eq_true', Bool.or_eq_false_iff, decide_eq_false_iff_not, not_lt]
      norm_num [mateHeight, mateSize]⟩

/-! ## C9: difficulty scaling sigmoid -/

/-- Function `sigmoidScale(score, min, max, midpoint = 500, steepness = 0.01)` from
`config.ts`: `min + (max - min) * (1 / (1 + exp(-steepness * (score - midpoint))))`. -/
noncomputable def sigmoidScale (score mn mx midpoint steepness : ℝ) : ℝ :=
  mn + (mx - mn) * (1 / (1 + Real.exp (-steepness * (score - midpoint))))

/-- The three difficulty constants rescaled by `updateGameDifficulty`.  The
source mutates `GAME_CONFIG` in place; the model returns the resulting
values. -/
structure DifficultyConfig where
  playerSpeed : ℝ
  jumpDuration : ℝ
  obstacleSpawnInterval : ℝ

/-- Function `updateGameDifficulty(score)` from `config.ts`. -/
noncomputable def updateGameDifficulty (score : ℝ) : DifficultyConfig :=
  ⟨sigmoidScale score 0.3 1.0 500 0.01,
   sigmoidScale score 0.9 0.5 500 0.01,
   sigmoidScale score 1.0 0.2 500 0.01⟩

lemma logistic_mem (t : ℝ) :
    0 < 1 / (1 + Real.exp t) ∧ 1 / (1 + Real.exp t) < 1 := by
  have he := Real.exp_pos t
  constructor
  · positivity
  · rw [div_lt_one (by positivity)]
    linarith

lemma logistic_mono (st mid s1 s2 : ℝ) (hst : 0 < st) (h : s1 < s2) :
    1 / (1 + Real.exp (-st * (s1 - mid))) < 1 / (1 + Real.exp (-st * (s2 - mid))) := by
  have harg : -st * (s2 - mid) < -st * (s1 - mid) := by nlinarith
  have hexp := Real.exp_lt_exp.mpr harg
  exact one_div_lt_one_div_of_lt (by positivity) (by linarith)

lemma sigmoidScale_mono_inc (mn mx mid st s1 s2 : ℝ)
    (hmm : mn < mx) (hst : 0 < st) (h : s1 < s2) :
    sigmoidScale s1 mn mx mid st < sigmoidScale s2 mn mx mid st := by
  unfold sigmoidScale
  have hL := logistic_mono st mid s1 s2 hst h
  have := mul_lt_mul_of_pos_left hL (sub_pos.mpr hmm)
  linarith

lemma sigmoidScale_mono_dec (mn mx mid st s1 s2 : ℝ)
    (hmm : mx < mn) (hst : 0 < st) (h : s1 < s2) :
    sigmoidScale s2 mn mx mid st < sigmoidScale s1 mn mx mid st := by
  unfold sigmoidScale
  have hL := logistic_mono st mid s1 s2 hst h
  have hneg : mx - mn < 0 := sub_neg.mpr hmm
  have := mul_lt_mul_of_neg_left hL hneg
  linarith

lemma sigmoidScale_between_inc (mn mx mid st s : ℝ) (hmm : mn < mx) :
    mn < sigmoidScale s mn mx mid st ∧ sigmoidScale s mn mx mid st < mx := by
  unfold sigmoidScale
  obtain ⟨h0, h1⟩ := logistic_mem (-st * (s - mid))
  constructor
  · nlinarith [mul_pos (sub_pos.mpr hmm) h0]
  · nlinarith [mul_pos (sub_pos.mpr hmm) (sub_pos.mpr h1)]

lemma sigmoidScale_between_dec (mn mx mid st s : ℝ) (hmm : mx < mn) :
    mx < sigmoidScale s mn mx mid st ∧ sigmoidScale s mn mx mid st < mn := by
  unfold sigmoidScale
  obtain ⟨h0, h1⟩ := logistic_mem (-st * (s - mid))
  constructor
  · nlinarith [mul_pos (sub_pos.mpr hmm) (sub_pos.mpr h1)]
  · nlinarith [mul_pos (sub_pos.mpr hmm) h0]

lemma sigmoidScale_midpoint (mn mx mid st : ℝ) :
    sigmoidScale mid mn mx mid st = (mn + mx) / 2 := by
  unfold sigmoidScale
  rw [sub_self, mul_zero, Real.exp_zero]
  ring

/-- C9: each difficulty constant is a sigmoid interpolation strictly between
its configured min and max (`playerSpeed ∈ (0.3, 1.0)`,
`jump.duration ∈ (0.5, 0.9)`, `obstacles.spawnInterval ∈ (0.2, 1.0)`),
strictly monotone in the score in the advertised direction (speed up,
duration and spawn interval down), and equal to the midpoint of min and max
at the configured score midpoint 500. -/
theorem updateGameDifficulty_sigmoid (score s1 s2 : ℝ) (h12 : s1 < s2) :
    (0.3 < (updateGameDifficulty score).playerSpeed ∧
      (updateGameDifficulty score).playerSpeed < 1.0) ∧
    (0.5 < (updateGameDifficulty score).jumpDuration ∧
      (updateGameDifficulty score).jumpDuration < 0.9) ∧
    (0.2 < (updateGameDifficulty score).obstacleSpawnInterval ∧
      (updateGameDifficulty score).obstacleSpawnInterval < 1.0) ∧
    (updateGameDifficulty s1).playerSpeed < (updateGameDifficulty s2).playerSpeed ∧
    (updateGameDifficulty s2).jumpDuration < (updateGameDifficulty s1).jumpDuration ∧
    (updateGameDifficulty s2).obstacleSpawnInterval <
      (updateGameDifficulty s1).obstacleSpawnInterval ∧
    (updateGameDifficulty 500).playerSpeed = (0.3 + 1.0) / 2 ∧
    (updateGameDifficulty 500).jumpDuration = (0.9 + 0.5) / 2 ∧
    (updateGameDifficulty 500).obstacleSpawnInterval = (1.0 + 0.2) / 2 := by
  refine ⟨?_, ?_, ?_, ?_, ?_, ?_, ?_, ?_, ?_⟩
  · exact sigmoidScale_between_inc 0.3 1.0 500 0.01 score (by norm_num)
  · have h := sigmoidScale_between_dec 0.9 0.5 500 0.01 score (by norm_num)
    exact ⟨h.1, h.2⟩
  · have h := sigmoidScale_between_dec 1.0 0.2 500 0.01 score (by norm_num)
    exact ⟨h.1, h.2⟩
  · exact sigmoidScale_mono_inc 0.3 1.0 500 0.01 s1 s2 (by norm_num) (by norm_num) h12
  · exact sigmoidScale_mono_dec 0.9 0.5 500 0.01 s1 s2 (by norm_num) (by norm_num) h12
  · exact sigmoidScale_mono_dec 1.0 0.2 500 0.01 s1 s2 (by norm_num) (by norm_num) h12
  · exact sigmoidScale_midpoint 0.3 1.0 500 0.01
  · exact sigmoidScale_midpoint 0.9 0.5 500 0.01
  · exact sigmoidScale_midpoint 1.0 0.2 500 0.01

/-- C9 witness: the sigmoid facts evaluated at score 0 (and the monotonicity
at the concrete pair 0 < 1). -/
theorem updateGameDifficulty_sigmoid_check :
    (0.3 < (updateGameDifficulty 0).playerSpeed ∧
      (updateGameDifficulty 0).playerSpeed < 1.0) ∧
    (0.5 < (updateGameDifficulty 0).jumpDuration ∧
      (updateGameDifficulty 0).jumpDuration < 0.9) ∧
    (0.2 < (updateGameDifficulty 0).obstacleSpawnInterval ∧
      (updateGameDifficulty 0).obstacleSpawnInterval < 1.0) ∧
    (updateGameDifficulty 0).playerSpeed < (updateGameDifficulty 1).playerSpeed ∧
    (updateGameDifficulty 1).jumpDuration < (updateGameDifficulty 0).jumpDuration ∧
    (updateGameDifficulty 1).obstacleSpawnInterval <
      (updateGameDifficulty 0).obstacleSpawnInterval ∧
    (updateGameDifficulty 500).playerSpeed = (0.3 + 1.0) / 2 ∧
    (updateGameDifficulty 500).jumpDuration = (0.9 + 0.5) / 2 ∧
    (updateGameDifficulty 500).obstacleSpawnInterval = (1.0 + 0.2) / 2 :=
  updateGameDifficulty_sigmoid 0 0 1 (by norm_num)

end Runner
